import Mathlib

/-!
Verification of the conversation-orchestration core of the multi-agent
harness: the normalized chat/tool data contract, the single-turn
tool-resolution loop (`TurnRunner.run_turn`) and the multi-participant
scheduler (`ConversationRunner.run`).

The Python source is embedded shallowly:
* Python values reachable from the contract types are modelled by `PyVal`
  (dictionaries as association lists).
* The blocking external calls (provider adapter `send_chat`, the injected
  tool executor) are modelled as explicit functions returning
  `Except PyError _`; a raised Python exception is the `.error` case.
* The stateful loops are modelled by explicit state passing; the
  conversation loop (`while True` in the source) additionally takes a
  fuel parameter bounding the number of iterations that can be unfolded,
  with a dedicated `fuelOut` outcome when it is exhausted.
* Externally observable effects (each adapter call, each tool-executor
  invocation) are recorded in an explicit trace, so that properties about
  "how many tools were executed before the failure" are statable.
Floating-point sampling parameters (`temperature`, `top_p`) are carried
nowhere in the embedded configuration: they are passed opaquely to the
adapter in the source and no verified property mentions them.
-/

namespace MultiAgentHarness

/-- A Python value, as far as the conversation core inspects one:
`None`, integers, strings, lists and string-keyed dictionaries
(association lists, in insertion order, as Python dicts preserve). -/
inductive PyVal where
  | none
  | int (n : Int)
  | str (s : String)
  | list (xs : List PyVal)
  | dict (entries : List (String × PyVal))

/-- A single-quote character, as used by Python `str`/`repr` renderings. -/
def squote : String := String.singleton (Char.ofNat 39)

/-- A double-quote character, as used by JSON renderings. -/
def dquote : String := String.singleton (Char.ofNat 34)

mutual

/-- Python `repr` of a `PyVal` (string escaping inside quotes elided). -/
def pyReprVal : PyVal → String
  | .none => "None"
  | .int n => toString n
  | .str s => squote ++ s ++ squote
  | .list xs => "[" ++ String.intercalate (", ") (pyReprList xs) ++ "]"
  | .dict es => "\x7b" ++ String.intercalate (", ") (pyReprEntries es) ++ "\x7d"

/-- `repr` of each element of a Python list. -/
def pyReprList : List PyVal → List String
  | [] => []
  | x :: xs => pyReprVal x :: pyReprList xs

/-- `repr` of each `key: value` entry of a Python dict. -/
def pyReprEntries : List (String × PyVal) → List String
  | [] => []
  | (k, v) :: es => (squote ++ k ++ squote ++ ": " ++ pyReprVal v) :: pyReprEntries es

end

/-- Python `str` of a `PyVal`: the string itself for strings, `repr`
rendering otherwise (this is what `str(message_content)` computes on a
dict in `ConversationRunner.run`). -/
def pyStr : PyVal → String
  | .str s => s
  | v => pyReprVal v

mutual

/-- `json.dumps` of a `PyVal` (string escaping elided; the core only
threads these payload strings through opaque messages). -/
def jsonDumps : PyVal → String
  | .none => "null"
  | .int n => toString n
  | .str s => dquote ++ s ++ dquote
  | .list xs => "[" ++ String.intercalate (", ") (jsonDumpsList xs) ++ "]"
  | .dict es => "\x7b" ++ String.intercalate (", ") (jsonDumpsEntries es) ++ "\x7d"

/-- `json.dumps` of each element of a list. -/
def jsonDumpsList : List PyVal → List String
  | [] => []
  | x :: xs => jsonDumps x :: jsonDumpsList xs

/-- `json.dumps` of each entry of a dict. -/
def jsonDumpsEntries : List (String × PyVal) → List String
  | [] => []
  | (k, v) :: es => (dquote ++ k ++ dquote ++ ": " ++ jsonDumps v) :: jsonDumpsEntries es

end

/-- A raised Python exception, as the conversation core can observe one. -/
inductive PyError where
  | valueError (msg : String)
  | assertionError
  | adapterFailure (info : String)
  | toolFailure (info : String)

/-- `adapters/base.py` `ChatMessage.content`: either plain text or a
structured payload (a Python dict). -/
inductive ChatContent where
  | text (s : String)
  | dict (d : List (String × PyVal))

/-- `adapters/base.py` `ChatMessage`. Roles are the literal strings
`system` / `user` / `assistant` / `tool`. -/
structure ChatMessage where
  role : String
  content : ChatContent

/-- `adapters/base.py` `ToolDefinition`. -/
structure ToolDefinition where
  name : String
  description : String
  input_schema : List (String × PyVal)

/-- `adapters/base.py` `ToolCall`: a tool invocation requested by a model.
`call_id` is nullable. -/
structure ToolCall where
  name : String
  arguments : List (String × PyVal)
  call_id : Option String

/-- `adapters/base.py` `ResponseFormat`. -/
structure ResponseFormat where
  type : String
  json_schema : Option (List (String × PyVal))

/-- `adapters/base.py` `ChatResponse` (`tool_calls` is a tuple in the
source, a `List` here). -/
structure ChatResponse where
  message : ChatMessage
  tool_calls : List ToolCall
  raw : PyVal

/-- `config.py` `RoleModelConfig` (the float sampling parameters are
omitted: they are opaque to every verified operation). -/
structure RoleModelConfig where
  provider : String
  model : String
  seed : Option Int

/-- `adapters/base.py` `ProviderAdapter`: the one-operation capability
boundary. `send_chat` is a pure function of its declared inputs; a raised
provider exception is the `.error` case. -/
structure ProviderAdapter where
  provider_name : String
  send_chat : RoleModelConfig → List ChatMessage → Option (List ToolDefinition) →
    Option ResponseFormat → Option String → Except PyError ChatResponse
  supports_tools : Bool

/-- The injected tool executor boundary: `(tool_name, arguments) → result`,
may raise. -/
def ToolExecutor := String → List (String × PyVal) → Except PyError PyVal

/-- `conversation/participant.py` `Participant` (the raw system prompt
strings are stored; the message view is the `system_prompts` accessor). -/
structure Participant where
  name : String
  adapter : ProviderAdapter
  model : String
  seed : Option Int
  system_prompts_raw : List String

/-- `Participant.system_prompts`: the raw prompts materialized as
system-role messages (recomputed on access in the source). -/
def Participant.system_prompts (p : Participant) : List ChatMessage :=
  p.system_prompts_raw.map (fun text => ⟨"system", .text text⟩)

/-- `Participant.model_config`: the projection consumed by the adapter. -/
def Participant.model_config (p : Participant) : RoleModelConfig :=
  ⟨p.adapter.provider_name, p.model, p.seed⟩

/-- One externally observable effect of a turn: an adapter call (with its
outcome) or a tool-executor invocation (with the call being executed and
the executor's outcome). -/
inductive TraceEvent where
  | adapterCall (result : Except PyError ChatResponse)
  | toolExec (call : ToolCall) (result : Except PyError PyVal)

/-- `conversation/turn_runner.py` `TurnRunner`. -/
structure TurnRunner where
  participant : Participant
  tools : List ToolDefinition
  tool_executor : Option ToolExecutor

/-- The payload entry built for one validated tool call
(`turn_runner.py` lines 95-104). -/
def toolCallPayload (call : ToolCall) (cid : String) : PyVal :=
  .dict [("type", .str ("function")), ("id", .str cid),
    ("function", .dict [("name", .str call.name),
      ("arguments", .str (jsonDumps (.dict call.arguments)))])]

/-- The validation/payload loop of `run_turn` (lines 88-104): walk the
response's tool calls in order, raising `ValueError` at the first call
whose `call_id` is `None`. -/
def buildToolCallsPayload : List ToolCall → Except PyError (List PyVal)
  | [] => .ok []
  | call :: rest =>
    match call.call_id with
    | Option.none =>
      .error (.valueError ("Tool call " ++ squote ++ call.name ++ squote ++
        " is missing required call_id. Provider adapters must set call_id for all tool calls."))
    | Option.some cid =>
      match buildToolCallsPayload rest with
      | .error e => .error e
      | .ok payload => .ok (toolCallPayload call cid :: payload)

/-- The execution loop of `run_turn` (lines 111-124): execute each tool
call in order, appending a tool-result message per call; an executor
exception propagates at once. The trace is extended with one `toolExec`
event per executor invocation and is returned in both outcomes. -/
def executeCalls (executor : Option ToolExecutor) :
    List ToolCall → List ChatMessage → List TraceEvent →
    (Except PyError (List ChatMessage)) × List TraceEvent
  | [], messages, trace => (.ok messages, trace)
  | call :: rest, messages, trace =>
    match executor with
    | Option.none => (.error .assertionError, trace)
    | Option.some ex =>
      let res := ex call.name call.arguments
      let trace2 := trace ++ [.toolExec call res]
      match res with
      | .error e => (.error e, trace2)
      | .ok result =>
        let tool_msg : ChatMessage :=
          ⟨"tool", .dict [("tool_call_id",
              match call.call_id with
              | Option.some c => .str c
              | Option.none => PyVal.none),
            ("content", .str (jsonDumps result))]⟩
        executeCalls executor rest (messages ++ [tool_msg]) trace2

/-- The adapter invocation made by `run_turn` (lines 74-80 and 127-133):
tools and tool_choice are passed only when the runner has tools. -/
def TurnRunner.sendChat (tr : TurnRunner) (messages : List ChatMessage)
    (response_format : Option ResponseFormat) (tool_choice : String) :
    Except PyError ChatResponse :=
  tr.participant.adapter.send_chat tr.participant.model_config messages
    (if tr.tools.isEmpty then Option.none else Option.some tr.tools)
    response_format
    (if tr.tools.isEmpty then Option.none else Option.some tool_choice)

/-- The return value of `run_turn` (lines 136-142): if any call was
executed, a rebuilt response carrying the final message and raw payload
but the aggregated executed calls; otherwise the final response itself. -/
def finishResponse (response : ChatResponse) (executed_calls : List ToolCall) :
    ChatResponse :=
  if executed_calls.isEmpty then response
  else ⟨response.message, executed_calls, response.raw⟩

/-- The `while` loop of `run_turn` (lines 85-134), recursing on the number
of remaining steps (`max_tool_steps - steps` in the source). -/
def TurnRunner.tool_loop (tr : TurnRunner) (response_format : Option ResponseFormat)
    (tool_choice : String) :
    Nat → List ChatMessage → ChatResponse → List ToolCall → List TraceEvent →
    (Except PyError ChatResponse) × List TraceEvent
  | 0, _messages, response, executed_calls, trace =>
    (.ok (finishResponse response executed_calls), trace)
  | remaining + 1, messages, response, executed_calls, trace =>
    if response.tool_calls.isEmpty then
      (.ok (finishResponse response executed_calls), trace)
    else
      let executed_calls2 := executed_calls ++ response.tool_calls
      match buildToolCallsPayload response.tool_calls with
      | .error e => (.error e, trace)
      | .ok payload =>
        let messages2 := messages ++
          [⟨"assistant", .dict [("tool_calls", .list payload)]⟩]
        match executeCalls tr.tool_executor response.tool_calls messages2 trace with
        | (.error e, trace2) => (.error e, trace2)
        | (.ok messages3, trace2) =>
          let res := tr.sendChat messages3 response_format tool_choice
          let trace3 := trace2 ++ [.adapterCall res]
          match res with
          | .error e => (.error e, trace3)
          | .ok response2 =>
            tr.tool_loop response_format tool_choice remaining messages3 response2
              executed_calls2 trace3

/-- `TurnRunner.run_turn` (lines 45-142): build the outbound message list,
make the initial adapter call, then drive the tool loop. Returns the
result together with the trace of external effects. -/
def TurnRunner.run_turn (tr : TurnRunner) (history : List ChatMessage)
    (user_message : String) (max_tool_steps : Nat) (tool_choice : String)
    (response_format : Option ResponseFormat) :
    (Except PyError ChatResponse) × List TraceEvent :=
  let messages := tr.participant.system_prompts ++ history ++
    [⟨"user", .text user_message⟩]
  let res := tr.sendChat messages response_format tool_choice
  let trace := [TraceEvent.adapterCall res]
  match res with
  | .error e => (.error e, trace)
  | .ok response =>
    tr.tool_loop response_format tool_choice max_tool_steps messages response [] trace

/-- `conversation/transcript.py` `ToolInvocationRecord`. -/
structure ToolInvocationRecord where
  tool_name : String
  arguments : List (String × PyVal)
  result : Option PyVal
  error : Option String

/-- `conversation/transcript.py` `ConversationTurn`. -/
structure ConversationTurn where
  role : String
  message : String
  tool_invocations : List ToolInvocationRecord

/-- `conversation/transcript.py` `ConversationTranscript`. -/
structure ConversationTranscript where
  turns : List ConversationTurn

/-- `ConversationTranscript.add_turn`: append a turn (the only mutation
the transcript type offers). -/
def ConversationTranscript.add_turn (t : ConversationTranscript)
    (turn : ConversationTurn) : ConversationTranscript :=
  ⟨t.turns ++ [turn]⟩

/-- The caller-injected stop predicate over the transcript-so-far. -/
def StopCondition := ConversationTranscript → Bool

/-- `conversation/conversation_runner.py` `ConversationRunner` (the
construction-time checks — at least two participants, executor present
when tools are — are preconditions, not re-modelled state). -/
structure ConversationRunner where
  participants : List Participant
  tools : List ToolDefinition
  tool_executor : Option ToolExecutor

/-- A placeholder participant used to make list indexing total; every
verified property indexes within bounds, where it is never returned. -/
def placeholderParticipant : Participant :=
  ⟨"", ⟨"", fun _ _ _ _ _ => .error .assertionError, false⟩, "", Option.none, []⟩

/-- The `_turn_runners` dict lookup: the dict is built by inserting each
participant in configured order keyed by name, so a lookup returns the
runner of the *last* participant bearing that name. -/
def ConversationRunner.turnRunnerFor (cr : ConversationRunner) (name : String) :
    Option TurnRunner :=
  ((cr.participants.filter (fun p => p.name == name)).getLast?).map
    (fun p => TurnRunner.mk p cr.tools cr.tool_executor)

/-- `ConversationRunner._build_history_for_participant` (lines 170-193):
replay every prior turn as alternating user/assistant messages by
position, even indices user, odd indices assistant. -/
def build_history_for_participant (transcript : ConversationTranscript) :
    List ChatMessage :=
  transcript.turns.enum.map (fun p =>
    ⟨if p.1 % 2 = 0 then "user" else "assistant", .text p.2.message⟩)

/-- The content extraction of `run` (lines 132-138): structured (dict)
content is rendered with Python `str`, plain text is kept. -/
def messageTextOf : ChatContent → String
  | .dict d => pyStr (.dict d)
  | .text s => s

/-- The tool-invocation records of `run` (lines 140-151): one record per
executed call, arguments captured, result not persisted. -/
def toolInvocationsOf (tool_calls : List ToolCall) : List ToolInvocationRecord :=
  tool_calls.map (fun c => ⟨c.name, c.arguments, Option.none, Option.none⟩)

/-- The local state of `ConversationRunner.run`'s loop: the (mutated in
place, in the source) transcript, plus the locals `current_message`,
`current_participant_idx` and `turn_count`. -/
structure RunState where
  transcript : ConversationTranscript
  current_message : String
  current_participant_idx : Nat
  turn_count : Nat

/-- The participant acting at a given state (`self.participants[current_participant_idx]`). -/
def ConversationRunner.participantAt (cr : ConversationRunner) (st : RunState) :
    Participant :=
  cr.participants.getD st.current_participant_idx placeholderParticipant

/-- The turn runner used at a given state
(`self._turn_runners[current_participant.name]`). -/
def ConversationRunner.turnRunnerAt (cr : ConversationRunner) (st : RunState) :
    TurnRunner :=
  (cr.turnRunnerFor (cr.participantAt st).name).getD
    (TurnRunner.mk (cr.participantAt st) cr.tools cr.tool_executor)

/-- The body of one iteration of `run`'s loop after the termination checks
(lines 115-166): pick the participant, build its history view, run the
turn, append the new turn and advance the state. An exception from the
turn aborts the iteration with the state untouched. -/
def ConversationRunner.run_step (cr : ConversationRunner) (tool_choice : String)
    (response_format : Option ResponseFormat) (st : RunState) :
    (Except PyError RunState) × List TraceEvent :=
  let current_participant := cr.participantAt st
  let turn_runner := cr.turnRunnerAt st
  let history := build_history_for_participant st.transcript
  match turn_runner.run_turn history st.current_message 6 tool_choice response_format with
  | (.error e, trace) => (.error e, trace)
  | (.ok response, trace) =>
    let message_text := messageTextOf response.message.content
    let tool_invocations := toolInvocationsOf response.tool_calls
    let turn : ConversationTurn :=
      ⟨current_participant.name, message_text, tool_invocations⟩
    (.ok ⟨st.transcript.add_turn turn, message_text,
      (st.current_participant_idx + 1) % cr.participants.length,
      st.turn_count + 1⟩, trace)

/-- The termination checks at the top of each iteration of `run`'s loop
(lines 108-113): the turn cap, then the stop predicate, both against the
state at the start of the iteration. -/
def shouldStop (max_turns : Option Nat) (stop_condition : Option StopCondition)
    (st : RunState) : Bool :=
  (match max_turns with
   | Option.some m => decide (m ≤ st.turn_count)
   | Option.none => false)
  || (match stop_condition with
   | Option.some f => f st.transcript
   | Option.none => false)

/-- The outcome of the conversation loop: a normal return, a propagated
exception together with the transcript as already mutated when it was
raised, or fuel exhaustion (the embedding's stand-in for a still-running
`while True` loop). -/
inductive RunOutcome where
  | ok (transcript : ConversationTranscript)
  | error (e : PyError) (transcript : ConversationTranscript)
  | fuelOut (transcript : ConversationTranscript)

/-- The transcript held by the caller in every outcome (the source mutates
the transcript object in place, so it survives a raised exception). -/
def RunOutcome.transcript : RunOutcome → ConversationTranscript
  | .ok t => t
  | .error _ t => t
  | .fuelOut t => t

/-- The `while True` loop of `run` (lines 107-166): check the termination
conditions, then run one step and recurse. `fuel` bounds the unfolding. -/
def ConversationRunner.run_loop (cr : ConversationRunner) (max_turns : Option Nat)
    (stop_condition : Option StopCondition) (tool_choice : String)
    (response_format : Option ResponseFormat) :
    Nat → RunState → RunOutcome
  | fuel, st =>
    if shouldStop max_turns stop_condition st then .ok st.transcript
    else
      match fuel with
      | 0 => .fuelOut st.transcript
      | fuel2 + 1 =>
        match cr.run_step tool_choice response_format st with
        | (.error e, _) => .error e st.transcript
        | (.ok st2, _) => cr.run_loop max_turns stop_condition tool_choice
            response_format fuel2 st2

/-- `ConversationRunner.run` (lines 61-168). The starting participant is
given by index (`None` meaning the default, index 0); the source resolves
a participant object to its index with `list.index`, raising `ValueError`
when it is absent, which the out-of-range index case mirrors here. -/
def ConversationRunner.run (cr : ConversationRunner) (fuel : Nat)
    (starting_message : String) (starting_participant : Option Nat)
    (max_turns : Option Nat) (stop_condition : Option StopCondition)
    (initial_transcript : Option ConversationTranscript)
    (tool_choice : String) (response_format : Option ResponseFormat) :
    RunOutcome :=
  let transcript := initial_transcript.getD ⟨[]⟩
  match starting_participant with
  | Option.none =>
    cr.run_loop max_turns stop_condition tool_choice response_format fuel
      ⟨transcript, starting_message, 0, 0⟩
  | Option.some i =>
    if i < cr.participants.length then
      cr.run_loop max_turns stop_condition tool_choice response_format fuel
        ⟨transcript, starting_message, i, 0⟩
    else
      .error (.valueError ("starting_participant not found in participants")) transcript

/-- The tool call recorded by a `toolExec` trace event, if any. -/
def TraceEvent.execCall? : TraceEvent → Option ToolCall
  | .toolExec call _ => Option.some call
  | _ => Option.none

/-- The adapter outcome recorded by an `adapterCall` trace event, if any. -/
def TraceEvent.adapterResult? : TraceEvent → Option (Except PyError ChatResponse)
  | .adapterCall result => Option.some result
  | _ => Option.none

/-- All tool calls handed to the tool executor, in execution order. -/
def executedCallsOf (trace : List TraceEvent) : List ToolCall :=
  trace.filterMap TraceEvent.execCall?

/-- All adapter-call outcomes, in call order. -/
def adapterResultsOf (trace : List TraceEvent) : List (Except PyError ChatResponse) :=
  trace.filterMap TraceEvent.adapterResult?

/-- Number of tool-executor invocations recorded in a trace. -/
def countToolExecs (trace : List TraceEvent) : Nat :=
  (executedCallsOf trace).length

/-- Number of adapter calls recorded in a trace. -/
def countAdapterCalls (trace : List TraceEvent) : Nat :=
  (adapterResultsOf trace).length

/-! ### Concrete fixtures used to instantiate the theorems -/

/-- An adapter that always replies with the given fixed text and no tool
calls. -/
def textAdapter (text : String) : ProviderAdapter :=
  ⟨"test", fun _ _ _ _ _ => .ok ⟨⟨"assistant", .text text⟩, [], PyVal.none⟩, false⟩

/-- Participant "Alice" with a fixed-text adapter. -/
def alice : Participant :=
  ⟨"Alice", textAdapter ("hi-from-alice"), "model-a", Option.none, []⟩

/-- Participant "Bob" with a fixed-text adapter. -/
def bob : Participant :=
  ⟨"Bob", textAdapter ("hi-from-bob"), "model-b", Option.none, []⟩

/-- A two-participant toolless conversation runner over Alice and Bob. -/
def crWitness : ConversationRunner := ⟨[alice, bob], [], Option.none⟩

/-- An adapter whose every call raises a provider failure. -/
def failingAdapter : ProviderAdapter :=
  ⟨"test", fun _ _ _ _ _ => .error (.adapterFailure ("boom")), false⟩

/-- Participant "Carol", backed by the always-failing adapter. -/
def carol : Participant :=
  ⟨"Carol", failingAdapter, "model-c", Option.none, []⟩

/-- A conversation runner whose first participant's adapter always fails. -/
def crFailing : ConversationRunner := ⟨[carol, bob], [], Option.none⟩

/-- An adapter that replies with structured (dict) message content. -/
def dictAdapter : ProviderAdapter :=
  ⟨"test", fun _ _ _ _ _ =>
    .ok ⟨⟨"assistant", .dict [("answer", .int 42)]⟩, [], PyVal.none⟩, false⟩

/-- Participant "Dave", backed by the dict-content adapter. -/
def dave : Participant :=
  ⟨"Dave", dictAdapter, "model-d", Option.none, []⟩

/-- A conversation runner whose first participant replies with dict
content. -/
def crDict : ConversationRunner := ⟨[dave, bob], [], Option.none⟩

/-- A tool call with a proper call id. -/
def toolCall0 : ToolCall := ⟨"t0", [], Option.some ("id0")⟩

/-- A second, distinct tool call with a proper call id. -/
def toolCall1 : ToolCall := ⟨"t1", [], Option.some ("id1")⟩

/-- A response carrying one requested tool call. -/
def respWithCall (c : ToolCall) (text : String) : ChatResponse :=
  ⟨⟨"assistant", .text text⟩, [c], PyVal.none⟩

/-- A tool definition offered in the tool-loop fixtures. -/
def demoTool : ToolDefinition := ⟨"t0", "demo tool", []⟩

/-- An executor that answers every tool call with the string "done". -/
def echoExecutor : ToolExecutor := fun _ _ => .ok (PyVal.str ("done"))

/-- An adapter that requests tool call `t0` on the first exchange and
tool call `t1` on every continuation (distinguished by message-list
length), so its every response contains exactly one tool call. -/
def loopingAdapter : ProviderAdapter :=
  ⟨"test", fun _ messages _ _ _ =>
    if messages.length ≤ 1 then .ok (respWithCall toolCall0 ("first"))
    else .ok (respWithCall toolCall1 ("second")), true⟩

/-- Participant "Eve", backed by the looping adapter. -/
def eve : Participant := ⟨"Eve", loopingAdapter, "model-e", Option.none, []⟩

/-- A turn runner over Eve with the demo tool and the echo executor. -/
def trLooping : TurnRunner := ⟨eve, [demoTool], Option.some echoExecutor⟩

/-- A tool call whose `call_id` is null. -/
def nullIdCall : ToolCall := ⟨"t-null", [], Option.none⟩

/-- A response requesting the null-id tool call. -/
def respNullId : ChatResponse :=
  ⟨⟨"assistant", .text ("pending")⟩, [nullIdCall], PyVal.none⟩

/-- An adapter whose every response requests the null-id tool call. -/
def nullIdAdapter : ProviderAdapter :=
  ⟨"test", fun _ _ _ _ _ => .ok respNullId, true⟩

/-- Participant "Frank", backed by the null-id adapter. -/
def frank : Participant := ⟨"Frank", nullIdAdapter, "model-f", Option.none, []⟩

/-- A turn runner over Frank with the demo tool and the echo executor. -/
def trNullId : TurnRunner := ⟨frank, [demoTool], Option.some echoExecutor⟩

/-- An adapter whose every response requests exactly the one tool call
`t0`, regardless of the conversation so far. -/
def oneCallAdapter : ProviderAdapter :=
  ⟨"test", fun _ _ _ _ _ => .ok (respWithCall toolCall0 ("calling")), true⟩

/-- Participant "Grace", backed by the one-call adapter. -/
def grace : Participant := ⟨"Grace", oneCallAdapter, "model-g", Option.none, []⟩

/-- A turn runner over Grace with the demo tool and the echo executor. -/
def trOneCall : TurnRunner := ⟨grace, [demoTool], Option.some echoExecutor⟩

/-- The response `trLooping.run_turn [] "go" 1 "auto" none` actually
returns: the final message and raw payload with the aggregated executed
call `t0`. -/
def respAggregated : ChatResponse :=
  ⟨⟨"assistant", .text ("second")⟩, [toolCall0], PyVal.none⟩

/-- The trace that `trLooping.run_turn [] "go" 1 "auto" none` produces. -/
def traceLooping : List TraceEvent :=
  [.adapterCall (.ok (respWithCall toolCall0 ("first"))),
    .toolExec toolCall0 (.ok (.str ("done"))),
    .adapterCall (.ok (respWithCall toolCall1 ("second")))]

end MultiAgentHarness

namespace MultiAgentHarness

/-! ## Theorems -/

/-- C5: the history list built for the next turn assigns roles purely by
position — even turn indices become `user` messages, odd indices
`assistant` messages, regardless of which named participant produced the
turn — and the i-th message's content is the i-th turn's message text. -/
theorem history_alternation (transcript : ConversationTranscript) (i : Nat)
    (h : i < transcript.turns.length) :
    (build_history_for_participant transcript)[i]? =
      Option.some ⟨if i % 2 = 0 then "user" else "assistant",
        .text ((transcript.turns.get ⟨i, h⟩).message)⟩ := by
  simp [build_history_for_participant, List.getElem?_map, List.getElem?_enum,
    List.getElem?_eq_getElem h, List.get_eq_getElem]

/-- Witness for C5 on a two-turn transcript: turn 1 is replayed as an
assistant message with that turn's text, although participant "Bob"
produced it. -/
theorem history_alternation_witness :
    (build_history_for_participant
        ⟨[⟨"Alice", "hi", []⟩, ⟨"Bob", "yo", []⟩]⟩)[1]? =
      Option.some ⟨"assistant",
        .text (((⟨[⟨"Alice", "hi", []⟩, ⟨"Bob", "yo", []⟩]⟩ :
          ConversationTranscript).turns.get ⟨1, by decide⟩).message)⟩ :=
  history_alternation ⟨[⟨"Alice", "hi", []⟩, ⟨"Bob", "yo", []⟩]⟩ 1 (by decide)

/-- One iteration body, error case: an exception raised inside the turn
(adapter or executor, already propagated unmodified by `run_turn`) is
returned by `run_step` unmodified, with the same trace. -/
theorem run_step_error_spec (cr : ConversationRunner) (tc : String)
    (rf : Option ResponseFormat) (st : RunState) (e : PyError)
    (trace : List TraceEvent)
    (h : (cr.turnRunnerAt st).run_turn (build_history_for_participant st.transcript)
      st.current_message 6 tc rf = (.error e, trace)) :
    cr.run_step tc rf st = (.error e, trace) := by
  unfold ConversationRunner.run_step
  simp only []
  rw [h]

/-- One iteration body, success case: the new state appends exactly one
fully formed turn and advances the locals. -/
theorem run_step_ok_spec (cr : ConversationRunner) (tc : String)
    (rf : Option ResponseFormat) (st : RunState) (response : ChatResponse)
    (trace : List TraceEvent)
    (h : (cr.turnRunnerAt st).run_turn (build_history_for_participant st.transcript)
      st.current_message 6 tc rf = (.ok response, trace)) :
    cr.run_step tc rf st =
      (.ok ⟨st.transcript.add_turn ⟨(cr.participantAt st).name,
          messageTextOf response.message.content,
          toolInvocationsOf response.tool_calls⟩,
        messageTextOf response.message.content,
        (st.current_participant_idx + 1) % cr.participants.length,
        st.turn_count + 1⟩, trace) := by
  unfold ConversationRunner.run_step
  simp only []
  rw [h]

/-- Inversion for a successful iteration body: the next state is the old
one with one turn appended (bearing the acting participant's name) and
the locals advanced. -/
theorem run_step_ok_inv (cr : ConversationRunner) (tc : String)
    (rf : Option ResponseFormat) (st st2 : RunState) (tr : List TraceEvent)
    (h : cr.run_step tc rf st = (.ok st2, tr)) :
    ∃ turn, turn.role = (cr.participantAt st).name ∧
      st2 = ⟨st.transcript.add_turn turn, turn.message,
        (st.current_participant_idx + 1) % cr.participants.length,
        st.turn_count + 1⟩ := by
  unfold ConversationRunner.run_step at h
  simp only [] at h
  rcases hx : (cr.turnRunnerAt st).run_turn (build_history_for_participant st.transcript)
      st.current_message 6 tc rf with ⟨res, trace⟩
  rw [hx] at h
  cases res with
  | error e => simp at h
  | ok response =>
    simp only [Prod.mk.injEq, Except.ok.injEq] at h
    obtain ⟨h1, _⟩ := h
    exact ⟨⟨(cr.participantAt st).name, messageTextOf response.message.content,
      toolInvocationsOf response.tool_calls⟩, rfl, h1.symm⟩

/-- The loop only ever appends: whatever the outcome (normal return,
propagated exception, or fuel exhaustion), the resulting transcript is
the starting transcript plus a tail of appended turns. -/
theorem run_loop_extends_turns (cr : ConversationRunner) (max_turns : Option Nat)
    (stop_condition : Option StopCondition) (tc : String)
    (rf : Option ResponseFormat) :
    ∀ (fuel : Nat) (st : RunState), ∃ tail,
      ((cr.run_loop max_turns stop_condition tc rf fuel st).transcript).turns =
        st.transcript.turns ++ tail := by
  intro fuel
  induction fuel with
  | zero =>
    intro st
    rw [ConversationRunner.run_loop.eq_def]
    by_cases hstop : shouldStop max_turns stop_condition st
    · simp [hstop, RunOutcome.transcript]
    · simp [hstop, RunOutcome.transcript]
  | succ n ih =>
    intro st
    rw [ConversationRunner.run_loop.eq_def]
    by_cases hstop : shouldStop max_turns stop_condition st
    · simp [hstop, RunOutcome.transcript]
    · simp only [hstop, Bool.false_eq_true, if_false]
      rcases hx : cr.run_step tc rf st with ⟨res, tr⟩
      cases res with
      | error e => simp [RunOutcome.transcript]
      | ok st2 =>
        simp only []
        obtain ⟨turn, _, hst2⟩ := run_step_ok_inv cr tc rf st st2 tr hx
        obtain ⟨tail2, htail2⟩ := ih st2
        refine ⟨turn :: tail2, ?_⟩
        rw [htail2, hst2]
        simp [ConversationTranscript.add_turn]

/-- C9: across every run — also when it exits via the stop condition, the
turn cap, a propagated exception or fuel exhaustion — the transcript is
append-only: the final transcript is the initial one extended by a tail
of turns, so the initial turns are never altered or removed and the
length never decreases. -/
theorem transcript_append_only (cr : ConversationRunner) (fuel : Nat)
    (starting_message : String) (starting_participant : Option Nat)
    (max_turns : Option Nat) (stop_condition : Option StopCondition)
    (initial_transcript : Option ConversationTranscript) (tool_choice : String)
    (response_format : Option ResponseFormat) :
    ∃ tail,
      ((cr.run fuel starting_message starting_participant max_turns stop_condition
          initial_transcript tool_choice response_format).transcript).turns =
        (initial_transcript.getD ⟨[]⟩).turns ++ tail := by
  cases starting_participant with
  | none =>
    show ∃ tail,
      ((cr.run_loop max_turns stop_condition tool_choice response_format fuel
          ⟨initial_transcript.getD ⟨[]⟩, starting_message, 0, 0⟩).transcript).turns =
        (initial_transcript.getD ⟨[]⟩).turns ++ tail
    exact run_loop_extends_turns cr max_turns stop_condition tool_choice
      response_format fuel ⟨initial_transcript.getD ⟨[]⟩, starting_message, 0, 0⟩
  | some i =>
    show ∃ tail,
      ((if i < cr.participants.length then
          cr.run_loop max_turns stop_condition tool_choice response_format fuel
            ⟨initial_transcript.getD ⟨[]⟩, starting_message, i, 0⟩
        else
          RunOutcome.error (.valueError ("starting_participant not found in participants"))
            (initial_transcript.getD ⟨[]⟩)).transcript).turns =
        (initial_transcript.getD ⟨[]⟩).turns ++ tail
    by_cases hlt : i < cr.participants.length
    · rw [if_pos hlt]
      exact run_loop_extends_turns cr max_turns stop_condition tool_choice
        response_format fuel ⟨initial_transcript.getD ⟨[]⟩, starting_message, i, 0⟩
    · rw [if_neg hlt]
      exact ⟨[], by simp [RunOutcome.transcript]⟩

/-- Loop invariant behind round-robin scheduling: starting from any
in-range participant index, the appended turns carry the participants'
names in cyclic order from that index. -/
theorem run_loop_roles_aux (cr : ConversationRunner) (max_turns : Option Nat)
    (stop_condition : Option StopCondition) (tc : String) (rf : Option ResponseFormat)
    (hN : 0 < cr.participants.length) :
    ∀ (fuel : Nat) (st : RunState),
      st.current_participant_idx < cr.participants.length →
      ∃ tail,
        ((cr.run_loop max_turns stop_condition tc rf fuel st).transcript).turns =
          st.transcript.turns ++ tail ∧
        ∀ j (hj : j < tail.length), (tail.get ⟨j, hj⟩).role =
          (cr.participants.getD
            ((st.current_participant_idx + j) % cr.participants.length)
            placeholderParticipant).name := by
  intro fuel
  induction fuel with
  | zero =>
    intro st _
    rw [ConversationRunner.run_loop.eq_def]
    by_cases hstop : shouldStop max_turns stop_condition st
    · simp only [hstop, if_true]
      exact ⟨[], by simp [RunOutcome.transcript], fun j hj => absurd hj (Nat.not_lt_zero j)⟩
    · simp only [hstop, Bool.false_eq_true, if_false]
      exact ⟨[], by simp [RunOutcome.transcript], fun j hj => absurd hj (Nat.not_lt_zero j)⟩
  | succ n ih =>
    intro st hidx
    rw [ConversationRunner.run_loop.eq_def]
    by_cases hstop : shouldStop max_turns stop_condition st
    · simp only [hstop, if_true]
      exact ⟨[], by simp [RunOutcome.transcript], fun j hj => absurd hj (Nat.not_lt_zero j)⟩
    · simp only [hstop, Bool.false_eq_true, if_false]
      rcases hx : cr.run_step tc rf st with ⟨res, tr⟩
      cases res with
      | error e =>
        exact ⟨[], by simp [RunOutcome.transcript], fun j hj => absurd hj (Nat.not_lt_zero j)⟩
      | ok st2 =>
        obtain ⟨turn, hrole, hst2⟩ := run_step_ok_inv cr tc rf st st2 tr hx
        subst hst2
        obtain ⟨tail2, htail2, hroles2⟩ :=
          ih ⟨st.transcript.add_turn turn, turn.message,
            (st.current_participant_idx + 1) % cr.participants.length,
            st.turn_count + 1⟩ (Nat.mod_lt _ hN)
        refine ⟨turn :: tail2, ?_, ?_⟩
        · rw [htail2]
          simp [ConversationTranscript.add_turn]
        · intro j hj
          cases j with
          | zero =>
            simpa [ConversationRunner.participantAt, List.getD,
              Nat.mod_eq_of_lt hidx] using hrole
          | succ j2 =>
            have h2 := hroles2 j2 (by simpa using hj)
            have harith :
                ((st.current_participant_idx + 1) % cr.participants.length + j2) %
                    cr.participants.length =
                  (st.current_participant_idx + (j2 + 1)) % cr.participants.length := by
              rw [Nat.mod_add_mod]
              congr 1
              omega
            simp only [List.get_eq_getElem, List.getElem_cons_succ] at h2 ⊢
            rw [h2, harith]

/-- C4: with the configured participants, no explicit starting
participant and an empty (or absent) initial transcript, every produced
turn's role is the name of the participant at its index modulo the
participant count — strict round-robin over the configured order. -/
theorem round_robin_roles (cr : ConversationRunner)
    (hP : 2 ≤ cr.participants.length) (fuel : Nat) (starting_message : String)
    (max_turns : Option Nat) (stop_condition : Option StopCondition)
    (initial_transcript : Option ConversationTranscript)
    (hinit : initial_transcript.getD ⟨[]⟩ = ⟨[]⟩)
    (tool_choice : String) (response_format : Option ResponseFormat)
    (i : Nat)
    (hi : i < ((cr.run fuel starting_message Option.none max_turns stop_condition
        initial_transcript tool_choice response_format).transcript).turns.length) :
    (((cr.run fuel starting_message Option.none max_turns stop_condition
        initial_transcript tool_choice response_format).transcript).turns.get ⟨i, hi⟩).role =
      (cr.participants.getD (i % cr.participants.length) placeholderParticipant).name := by
  have hN : 0 < cr.participants.length := by omega
  have hrun : cr.run fuel starting_message Option.none max_turns stop_condition
      initial_transcript tool_choice response_format =
      cr.run_loop max_turns stop_condition tool_choice response_format fuel
        ⟨⟨[]⟩, starting_message, 0, 0⟩ := by
    show cr.run_loop max_turns stop_condition tool_choice response_format fuel
        ⟨initial_transcript.getD ⟨[]⟩, starting_message, 0, 0⟩ = _
    rw [hinit]
  obtain ⟨tail, htail, hroles⟩ := run_loop_roles_aux cr max_turns stop_condition
    tool_choice response_format hN fuel ⟨⟨[]⟩, starting_message, 0, 0⟩ hN
  revert hi
  rw [hrun]
  intro hi
  have hlen : ((cr.run_loop max_turns stop_condition tool_choice response_format fuel
      ⟨⟨[]⟩, starting_message, 0, 0⟩).transcript).turns = tail := by
    simpa using htail
  revert hi
  rw [hlen]
  intro hi
  simpa using hroles i hi

/-- Witness for C4: two participants answering with fixed texts, a cap of
two turns and enough fuel — turn 1's role is the name of participant
1 % 2 = 1, namely "Bob". -/
theorem round_robin_roles_witness :
    2 ≤ (crWitness.participants.length) ∧
    ((((crWitness.run 3 "hello" Option.none (Option.some 2) Option.none Option.none
        "auto" Option.none).transcript).turns.get ⟨1, by decide⟩).role = "Bob") :=
  ⟨by decide,
    round_robin_roles crWitness (by decide) 3 "hello" (Option.some 2) Option.none
      Option.none rfl "auto" Option.none 1 (by decide)⟩

/-- C6: the turn cap and the stop predicate are evaluated against the
state at the start of the iteration, before any turn is produced; when
either (or both) triggers, the loop returns the transcript unchanged —
no turn is produced for that iteration, whatever fuel remains. -/
theorem stop_checked_before_turn (cr : ConversationRunner)
    (max_turns : Option Nat) (stop_condition : Option StopCondition)
    (tool_choice : String) (response_format : Option ResponseFormat)
    (fuel : Nat) (st : RunState)
    (h : (∃ m, max_turns = Option.some m ∧ m ≤ st.turn_count) ∨
      (∃ f, stop_condition = Option.some f ∧ f st.transcript = true)) :
    cr.run_loop max_turns stop_condition tool_choice response_format fuel st =
      .ok st.transcript := by
  have hstop : shouldStop max_turns stop_condition st = true := by
    rcases h with ⟨m, hm, hle⟩ | ⟨f, hf, htrue⟩
    · simp [shouldStop, hm, hle]
    · simp [shouldStop, hf, htrue]
  rw [ConversationRunner.run_loop.eq_def]
  simp [hstop]

/-- Witness for C6: with both a zero turn cap and an always-true stop
predicate triggering at the initial state, the loop returns the initial
transcript with no turn appended. -/
theorem stop_checked_before_turn_witness :
    ConversationRunner.run_loop
      ⟨[placeholderParticipant, placeholderParticipant], [], Option.none⟩
      (Option.some 0) (Option.some (fun _ => true)) "auto" Option.none 5
      ⟨⟨[]⟩, "go", 0, 0⟩ = .ok ⟨[]⟩ :=
  stop_checked_before_turn
    ⟨[placeholderParticipant, placeholderParticipant], [], Option.none⟩
    (Option.some 0) (Option.some (fun _ => true)) "auto" Option.none 5
    ⟨⟨[]⟩, "go", 0, 0⟩ (Or.inl ⟨0, rfl, Nat.le_refl 0⟩)

/-- C8: when the adapter or the tool executor raises during an iteration,
the exception value propagates unmodified and the transcript is exactly
as it was when the iteration began: (1) the loop returns that error with
the untouched transcript; (2) every error exit's transcript extends the
iteration-start transcript only by fully completed turns; (3) a raised
initial adapter call propagates out of `run_turn` unchanged with no tool
executed; (4) a raised tool executor propagates out of the execution
loop unchanged. -/
theorem exception_aborts_turn_cleanly (cr : ConversationRunner)
    (max_turns : Option Nat) (stop_condition : Option StopCondition) (tc : String)
    (rf : Option ResponseFormat) (fuel : Nat) (st : RunState) (e : PyError)
    (trace : List TraceEvent)
    (hstop : shouldStop max_turns stop_condition st = false)
    (hturn : (cr.turnRunnerAt st).run_turn (build_history_for_participant st.transcript)
      st.current_message 6 tc rf = (.error e, trace)) :
    cr.run_loop max_turns stop_condition tc rf (fuel + 1) st = .error e st.transcript ∧
    (∀ (fuel2 : Nat) (st2 : RunState) (e2 : PyError) (t2 : ConversationTranscript),
      cr.run_loop max_turns stop_condition tc rf fuel2 st2 = .error e2 t2 →
      ∃ tail, t2.turns = st2.transcript.turns ++ tail) ∧
    (∀ (tr2 : TurnRunner) (history : List ChatMessage) (um : String) (k : Nat)
      (e2 : PyError),
      tr2.sendChat (tr2.participant.system_prompts ++ history ++ [⟨"user", .text um⟩])
        rf tc = .error e2 →
      tr2.run_turn history um k tc rf = (.error e2, [.adapterCall (.error e2)])) ∧
    (∀ (ex : ToolExecutor) (call : ToolCall) (rest : List ToolCall)
      (messages : List ChatMessage) (trace2 : List TraceEvent) (e2 : PyError),
      ex call.name call.arguments = .error e2 →
      executeCalls (Option.some ex) (call :: rest) messages trace2 =
        (.error e2, trace2 ++ [.toolExec call (.error e2)])) := by
  refine ⟨?_, ?_, ?_, ?_⟩
  · rw [ConversationRunner.run_loop.eq_def]
    simp only [hstop, Bool.false_eq_true, if_false]
    rw [run_step_error_spec cr tc rf st e trace hturn]
  · intro fuel2 st2 e2 t2 heq
    obtain ⟨tail, h2⟩ := run_loop_extends_turns cr max_turns stop_condition tc rf fuel2 st2
    rw [heq] at h2
    exact ⟨tail, by simpa [RunOutcome.transcript] using h2⟩
  · intro tr2 history um k e2 hsend
    unfold TurnRunner.run_turn
    simp only []
    rw [hsend]
  · intro ex call rest messages trace2 e2 hex
    rw [executeCalls.eq_def]
    simp only []
    rw [hex]

/-- Witness for C8: a run over a participant whose adapter always raises
ends with that exact error and the initial transcript untouched. -/
theorem exception_aborts_turn_cleanly_witness :
    shouldStop Option.none Option.none ⟨⟨[]⟩, "go", 0, 0⟩ = false ∧
    ConversationRunner.run_loop crFailing Option.none Option.none "auto" Option.none 3
      ⟨⟨[]⟩, "go", 0, 0⟩ = .error (.adapterFailure ("boom")) ⟨[]⟩ :=
  ⟨rfl, (exception_aborts_turn_cleanly crFailing Option.none Option.none "auto"
    Option.none 2 ⟨⟨[]⟩, "go", 0, 0⟩ (.adapterFailure ("boom"))
    [.adapterCall (.error (.adapterFailure ("boom")))] rfl rfl).1⟩

/-- C10: when the final response of a turn carries structured (dict)
content, the turn recorded in the transcript has the Python `str`
rendering of that dict as its message, and that same rendered string —
not the structured payload — becomes the current message the next
participant must respond to. -/
theorem structured_content_stringified (cr : ConversationRunner) (tc : String)
    (rf : Option ResponseFormat) (st : RunState) (response : ChatResponse)
    (trace : List TraceEvent) (d : List (String × PyVal))
    (hturn : (cr.turnRunnerAt st).run_turn (build_history_for_participant st.transcript)
      st.current_message 6 tc rf = (.ok response, trace))
    (hdict : response.message.content = .dict d) :
    cr.run_step tc rf st =
      (.ok ⟨st.transcript.add_turn ⟨(cr.participantAt st).name, pyStr (.dict d),
          toolInvocationsOf response.tool_calls⟩,
        pyStr (.dict d),
        (st.current_participant_idx + 1) % cr.participants.length,
        st.turn_count + 1⟩, trace) := by
  rw [run_step_ok_spec cr tc rf st response trace hturn, hdict]
  simp [messageTextOf]

/-- Witness for C10: a participant whose adapter replies with dict
content yields a turn whose recorded transcript message and the next
current message are both the dict's `str` rendering. -/
theorem structured_content_stringified_witness :
    ConversationRunner.run_step crDict "auto" Option.none ⟨⟨[]⟩, "q", 0, 0⟩ =
      (.ok ⟨⟨[⟨"Dave", pyStr (.dict [("answer", .int 42)]), []⟩]⟩,
        pyStr (.dict [("answer", .int 42)]), 1, 1⟩,
       [.adapterCall (.ok ⟨⟨"assistant", .dict [("answer", .int 42)]⟩, [], PyVal.none⟩)]) :=
  structured_content_stringified crDict "auto" Option.none ⟨⟨[]⟩, "q", 0, 0⟩
    ⟨⟨"assistant", .dict [("answer", .int 42)]⟩, [], PyVal.none⟩
    [.adapterCall (.ok ⟨⟨"assistant", .dict [("answer", .int 42)]⟩, [], PyVal.none⟩)]
    [("answer", .int 42)] rfl rfl

/-- Validation succeeds when every call carries a call id. -/
theorem buildToolCallsPayload_ok (calls : List ToolCall)
    (h : ∀ c ∈ calls, c.call_id ≠ Option.none) :
    ∃ p, buildToolCallsPayload calls = .ok p := by
  induction calls with
  | nil => exact ⟨[], rfl⟩
  | cons call rest ih =>
    obtain ⟨cid, hcid⟩ : ∃ cid, call.call_id = Option.some cid := by
      cases hc : call.call_id with
      | none => exact absurd hc (h call (List.mem_cons_self call rest))
      | some cid => exact ⟨cid, rfl⟩
    obtain ⟨p, hp⟩ := ih (fun c hc => h c (List.mem_cons_of_mem call hc))
    exact ⟨toolCallPayload call cid :: p, by simp only [buildToolCallsPayload, hcid, hp]⟩

/-- Validation raises a `ValueError` whenever some call's id is null. -/
theorem buildToolCallsPayload_missing (calls : List ToolCall)
    (h : ∃ c ∈ calls, c.call_id = Option.none) :
    ∃ m, buildToolCallsPayload calls = .error (.valueError m) := by
  induction calls with
  | nil =>
    obtain ⟨c, hc, _⟩ := h
    exact absurd hc (List.not_mem_nil c)
  | cons call rest ih =>
    cases hcid : call.call_id with
    | none =>
      exact ⟨"Tool call " ++ squote ++ call.name ++ squote ++
        " is missing required call_id. Provider adapters must set call_id for all tool calls.",
        by simp only [buildToolCallsPayload, hcid]⟩
    | some cid =>
      obtain ⟨c, hc, hcnone⟩ := h
      rcases List.mem_cons.mp hc with rfl | hmem
      · rw [hcid] at hcnone
        exact Option.noConfusion hcnone
      · obtain ⟨m, hm⟩ := ih ⟨c, hmem, hcnone⟩
        exact ⟨m, by simp only [buildToolCallsPayload, hcid, hm]⟩

/-- A successful pass of the execution loop records exactly the executed
calls as `toolExec` events, in order, and no adapter events. -/
theorem executeCalls_ok_trace (exo : Option ToolExecutor) :
    ∀ (calls : List ToolCall) (messages : List ChatMessage)
      (trace : List TraceEvent) (m2 : List ChatMessage) (t2 : List TraceEvent),
      executeCalls exo calls messages trace = (.ok m2, t2) →
      executedCallsOf t2 = executedCallsOf trace ++ calls ∧
      adapterResultsOf t2 = adapterResultsOf trace := by
  intro calls
  induction calls with
  | nil =>
    intro messages trace m2 t2 h
    simp only [executeCalls, Prod.mk.injEq, Except.ok.injEq] at h
    obtain ⟨_, ht⟩ := h
    subst ht
    simp
  | cons call rest ih =>
    intro messages trace m2 t2 h
    simp only [executeCalls] at h
    cases exo with
    | none => simp at h
    | some ex =>
      simp only [] at h
      cases hres : ex call.name call.arguments with
      | error e =>
        rw [hres] at h
        simp at h
      | ok v =>
        rw [hres] at h
        obtain ⟨h1, h2⟩ := ih _ _ _ _ h
        constructor
        · rw [h1]
          simp [executedCallsOf, List.filterMap_append, TraceEvent.execCall?]
        · rw [h2]
          simp [adapterResultsOf, List.filterMap_append, TraceEvent.adapterResult?]

/-- The execution loop succeeds when the executor never raises. -/
theorem executeCalls_total (ex : ToolExecutor)
    (hex : ∀ n a, ∃ v, ex n a = .ok v) :
    ∀ (calls : List ToolCall) (messages : List ChatMessage)
      (trace : List TraceEvent),
      ∃ m2 t2, executeCalls (Option.some ex) calls messages trace = (.ok m2, t2) := by
  intro calls
  induction calls with
  | nil =>
    intro messages trace
    exact ⟨messages, trace, rfl⟩
  | cons call rest ih =>
    intro messages trace
    obtain ⟨v, hv⟩ := hex call.name call.arguments
    obtain ⟨m2, t2, h⟩ := ih (messages ++ [⟨"tool", .dict [("tool_call_id",
        match call.call_id with
        | Option.some c => .str c
        | Option.none => PyVal.none),
      ("content", .str (jsonDumps v))]⟩]) (trace ++ [.toolExec call (.ok v)])
    refine ⟨m2, t2, ?_⟩
    simp only [executeCalls, hv]
    exact h

/-- A trailing adapter event leaves the executed-call projection alone. -/
theorem executedCallsOf_concat_adapter (l : List TraceEvent)
    (res : Except PyError ChatResponse) :
    executedCallsOf (l ++ [.adapterCall res]) = executedCallsOf l := by
  simp [executedCallsOf, List.filterMap_append, TraceEvent.execCall?]

/-- A trailing adapter event appends its outcome to the adapter projection. -/
theorem adapterResultsOf_concat_adapter (l : List TraceEvent)
    (res : Except PyError ChatResponse) :
    adapterResultsOf (l ++ [.adapterCall res]) = adapterResultsOf l ++ [res] := by
  simp [adapterResultsOf, List.filterMap_append, TraceEvent.adapterResult?]

/-- Invariant of the tool loop on a successful exit: the returned response
is `finishResponse` of the last adapter response and the aggregate of all
executed calls, as projected from the trace. -/
theorem tool_loop_ok_spec (tr : TurnRunner) (rf : Option ResponseFormat) (tc : String) :
    ∀ (rem : Nat) (msgs : List ChatMessage) (response : ChatResponse)
      (executed : List ToolCall) (trace : List TraceEvent) (r : ChatResponse)
      (t2 : List TraceEvent),
      executedCallsOf trace = executed →
      (adapterResultsOf trace).getLast? = Option.some (.ok response) →
      tr.tool_loop rf tc rem msgs response executed trace = (.ok r, t2) →
      ∃ final, (adapterResultsOf t2).getLast? = Option.some (.ok final) ∧
        r = finishResponse final (executedCallsOf t2) := by
  intro rem
  induction rem with
  | zero =>
    intro msgs response executed trace r t2 hexec hlast h
    simp only [TurnRunner.tool_loop, Prod.mk.injEq, Except.ok.injEq] at h
    obtain ⟨hr, ht⟩ := h
    subst ht
    exact ⟨response, hlast, by rw [← hr, hexec]⟩
  | succ n ih =>
    intro msgs response executed trace r t2 hexec hlast h
    simp only [TurnRunner.tool_loop] at h
    by_cases hempty : response.tool_calls.isEmpty
    · rw [if_pos hempty] at h
      simp only [Prod.mk.injEq, Except.ok.injEq] at h
      obtain ⟨hr, ht⟩ := h
      subst ht
      exact ⟨response, hlast, by rw [← hr, hexec]⟩
    · rw [if_neg hempty] at h
      cases hpay : buildToolCallsPayload response.tool_calls with
      | error e =>
        rw [hpay] at h
        simp at h
      | ok payload =>
        rw [hpay] at h
        simp only [] at h
        rcases hexe : executeCalls tr.tool_executor response.tool_calls
            (msgs ++ [⟨"assistant", .dict [("tool_calls", .list payload)]⟩]) trace
          with ⟨eres, etr⟩
        rw [hexe] at h
        cases eres with
        | error e => simp at h
        | ok m3 =>
          simp only [] at h
          cases hsendres : tr.sendChat m3 rf tc with
          | error e =>
            rw [hsendres] at h
            simp at h
          | ok response2 =>
            rw [hsendres] at h
            simp only [] at h
            obtain ⟨hcalls, _⟩ := executeCalls_ok_trace tr.tool_executor
              response.tool_calls _ trace m3 etr hexe
            refine ih m3 response2 (executed ++ response.tool_calls)
              (etr ++ [.adapterCall (.ok response2)]) r t2 ?_ ?_ h
            · rw [executedCallsOf_concat_adapter, hcalls, hexec]
            · rw [adapterResultsOf_concat_adapter]
              exact List.getLast?_concat _

/-- Under an adapter that always returns exactly one id-bearing tool call
and an executor that never raises, the loop runs its full step budget:
each remaining step executes one tool and makes one adapter call. -/
theorem tool_loop_counts (tr : TurnRunner) (rf : Option ResponseFormat) (tc : String)
    (ex : ToolExecutor) (hexo : tr.tool_executor = Option.some ex)
    (hex : ∀ n a, ∃ v, ex n a = .ok v)
    (hsend : ∀ messages, ∃ resp, tr.sendChat messages rf tc = .ok resp ∧
      resp.tool_calls.length = 1 ∧ ∀ c ∈ resp.tool_calls, c.call_id ≠ Option.none) :
    ∀ (rem : Nat) (msgs : List ChatMessage) (response : ChatResponse)
      (executed : List ToolCall) (trace : List TraceEvent),
      response.tool_calls.length = 1 →
      (∀ c ∈ response.tool_calls, c.call_id ≠ Option.none) →
      ∃ r t2, tr.tool_loop rf tc rem msgs response executed trace = (.ok r, t2) ∧
        countToolExecs t2 = countToolExecs trace + rem ∧
        countAdapterCalls t2 = countAdapterCalls trace + rem := by
  intro rem
  induction rem with
  | zero =>
    intro msgs response executed trace _ _
    exact ⟨finishResponse response executed, trace, rfl, rfl, rfl⟩
  | succ n ih =>
    intro msgs response executed trace hlen hids
    have hempty : response.tool_calls.isEmpty = false := by
      cases hc : response.tool_calls with
      | nil => rw [hc] at hlen; simp at hlen
      | cons a as => simp [hc]
    obtain ⟨payload, hpay⟩ := buildToolCallsPayload_ok response.tool_calls hids
    obtain ⟨m3, etr, hexe⟩ := executeCalls_total ex hex response.tool_calls
      (msgs ++ [⟨"assistant", .dict [("tool_calls", .list payload)]⟩]) trace
    obtain ⟨hcalls, hadapt⟩ := executeCalls_ok_trace (Option.some ex)
      response.tool_calls _ trace m3 etr hexe
    obtain ⟨response2, hs, hlen2, hids2⟩ := hsend m3
    obtain ⟨r, t2, hloop, hc1, hc2⟩ := ih m3 response2 (executed ++ response.tool_calls)
      (etr ++ [.adapterCall (.ok response2)]) hlen2 hids2
    refine ⟨r, t2, ?_, ?_, ?_⟩
    · simp only [TurnRunner.tool_loop, hempty, Bool.false_eq_true, if_false, hpay,
        hexo, hexe, hs]
      exact hloop
    · rw [hc1, countToolExecs, executedCallsOf_concat_adapter, hcalls]
      simp only [countToolExecs, List.length_append, hlen]
      omega
    · rw [hc2, countAdapterCalls, adapterResultsOf_concat_adapter, hadapt]
      simp only [countAdapterCalls, List.length_append, List.length_cons,
        List.length_nil]
      omega

/-- C7: against an adapter whose every response contains (exactly) one
tool call and an executor that never raises, `run_turn` with
`max_tool_steps = k` terminates after exactly `k` tool-executor
invocations and `k + 1` adapter calls; and with `k = 0` the first
response is returned as-is, with zero tools executed, regardless of its
content. -/
theorem tool_loop_termination_counts (tr : TurnRunner) (rf : Option ResponseFormat)
    (tc : String) (ex : ToolExecutor) (hexo : tr.tool_executor = Option.some ex)
    (hex : ∀ n a, ∃ v, ex n a = .ok v)
    (hsend : ∀ messages, ∃ resp, tr.sendChat messages rf tc = .ok resp ∧
      resp.tool_calls.length = 1 ∧ ∀ c ∈ resp.tool_calls, c.call_id ≠ Option.none)
    (k : Nat) (history : List ChatMessage) (um : String) :
    (∃ r t2, tr.run_turn history um k tc rf = (.ok r, t2) ∧
      countToolExecs t2 = k ∧ countAdapterCalls t2 = k + 1) ∧
    (∀ (tr2 : TurnRunner) (history2 : List ChatMessage) (um2 : String)
      (r0 : ChatResponse),
      tr2.sendChat (tr2.participant.system_prompts ++ history2 ++
        [⟨"user", .text um2⟩]) rf tc = .ok r0 →
      tr2.run_turn history2 um2 0 tc rf = (.ok r0, [.adapterCall (.ok r0)])) := by
  constructor
  · obtain ⟨r0, hs0, hlen0, hids0⟩ := hsend
      (tr.participant.system_prompts ++ history ++ [⟨"user", .text um⟩])
    obtain ⟨r, t2, hloop, hc1, hc2⟩ := tool_loop_counts tr rf tc ex hexo hex hsend k
      (tr.participant.system_prompts ++ history ++ [⟨"user", .text um⟩]) r0 []
      [.adapterCall (.ok r0)] hlen0 hids0
    refine ⟨r, t2, ?_, ?_, ?_⟩
    · unfold TurnRunner.run_turn
      simp only []
      rw [hs0]
      exact hloop
    · rw [hc1]
      have h0 : countToolExecs [TraceEvent.adapterCall (Except.ok r0)] = 0 := rfl
      omega
    · rw [hc2]
      have h1 : countAdapterCalls [TraceEvent.adapterCall (Except.ok r0)] = 1 := rfl
      omega
  · intro tr2 history2 um2 r0 hs0
    unfold TurnRunner.run_turn
    simp only []
    rw [hs0]
    simp only [TurnRunner.tool_loop, finishResponse, List.isEmpty_nil, if_true]

/-- Witness for C7: Grace's adapter always asks for one tool call; with a
budget of two steps the turn makes exactly two tool executions and three
adapter calls. -/
theorem tool_loop_termination_counts_witness :
    ∃ r t2, trOneCall.run_turn [] "go" 2 "auto" Option.none = (.ok r, t2) ∧
      countToolExecs t2 = 2 ∧ countAdapterCalls t2 = 2 + 1 :=
  (tool_loop_termination_counts trOneCall Option.none "auto" echoExecutor rfl
    (fun n a => ⟨.str ("done"), rfl⟩)
    (fun messages => ⟨respWithCall toolCall0 ("calling"), rfl, rfl,
      by simp [respWithCall, toolCall0]⟩)
    2 [] "go").1

/-- C2: whenever at least one tool call was executed during the loop, the
returned response's `tool_calls` is the concatenation, in execution
order, of every tool call executed across all iterations — not the final
response's own calls — while its message (and raw payload) are the last
adapter response's. -/
theorem aggregated_tool_calls (tr : TurnRunner) (rf : Option ResponseFormat)
    (tc : String) (history : List ChatMessage) (um : String) (k : Nat)
    (r : ChatResponse) (trace : List TraceEvent)
    (h : tr.run_turn history um k tc rf = (.ok r, trace))
    (hne : executedCallsOf trace ≠ []) :
    r.tool_calls = executedCallsOf trace ∧
    ∃ final, (adapterResultsOf trace).getLast? = Option.some (.ok final) ∧
      r.message = final.message ∧ r.raw = final.raw := by
  unfold TurnRunner.run_turn at h
  simp only [] at h
  cases hs0 : tr.sendChat (tr.participant.system_prompts ++ history ++
      [⟨"user", .text um⟩]) rf tc with
  | error e =>
    rw [hs0] at h
    simp at h
  | ok r0 =>
    rw [hs0] at h
    simp only [] at h
    obtain ⟨final, hlast, hr⟩ := tool_loop_ok_spec tr rf tc k _ r0 []
      [.adapterCall (.ok r0)] r trace rfl rfl h
    rw [hr, finishResponse, if_neg (by simpa using hne)]
    exact ⟨rfl, final, hlast, rfl, rfl⟩

/-- Witness for C2: after one loop iteration against Eve's adapter, the
returned `tool_calls` is the executed call `t0` (not the final
response's pending `t1`), and the message is the final response's. -/
theorem aggregated_tool_calls_witness :
    respAggregated.tool_calls = executedCallsOf traceLooping ∧
    ∃ final, (adapterResultsOf traceLooping).getLast? = Option.some (.ok final) ∧
      respAggregated.message = final.message ∧ respAggregated.raw = final.raw :=
  aggregated_tool_calls trLooping Option.none "auto" [] "go" 1
    respAggregated traceLooping rfl
    (fun hcontra => List.noConfusion
      (show (toolCall0 :: [] : List ToolCall) = [] from hcontra))

/-- C1 is false as stated: at `max_tool_steps = 1` against Eve's adapter,
the loop stops with the step budget consumed while the last adapter
response (`t1` pending) still contains a tool call, there were 2 = k + 1
adapter calls, yet the returned response is NOT that final response as-is
— its `tool_calls` field was replaced by the aggregate. -/
theorem unresolved_final_response_counterexample :
    (adapterResultsOf (trLooping.run_turn [] "go" 1 "auto" Option.none).snd).getLast? =
      Option.some (.ok (respWithCall toolCall1 ("second"))) ∧
    (respWithCall toolCall1 ("second")).tool_calls ≠ [] ∧
    countAdapterCalls (trLooping.run_turn [] "go" 1 "auto" Option.none).snd = 2 ∧
    (trLooping.run_turn [] "go" 1 "auto" Option.none).fst ≠
      .ok (respWithCall toolCall1 ("second")) := by
  refine ⟨rfl, ?_, rfl, ?_⟩
  · intro hcontra
    exact List.noConfusion (show (toolCall1 :: [] : List ToolCall) = [] from hcontra)
  · intro hcontra
    have h2 : (Except.ok respAggregated : Except PyError ChatResponse) =
        .ok (respWithCall toolCall1 ("second")) :=
      (show (trLooping.run_turn [] "go" 1 "auto" Option.none).fst =
        .ok respAggregated from rfl).symm.trans hcontra
    have h3 := congrArg (fun res => match res with
      | Except.ok resp => resp.tool_calls.map ToolCall.name
      | Except.error _ => ([] : List String)) h2
    exact absurd h3 (by decide)

/-- C1 (amended): when the loop stops because the step budget is consumed
while the last adapter response still contains tool calls, the returned
response carries that final response's message and raw payload; its
`tool_calls` field, however, is the aggregate of the calls executed
across the loop — only when no call was executed (zero iterations, e.g.
`max_tool_steps = 0`) is the final response returned as-is. -/
theorem unresolved_final_response (tr : TurnRunner) (rf : Option ResponseFormat)
    (tc : String) (history : List ChatMessage) (um : String) (k : Nat)
    (r final : ChatResponse) (trace : List TraceEvent)
    (h : tr.run_turn history um k tc rf = (.ok r, trace))
    (hfin : (adapterResultsOf trace).getLast? = Option.some (.ok final))
    (hcalls : final.tool_calls ≠ []) :
    r.message = final.message ∧ r.raw = final.raw ∧
    (executedCallsOf trace = [] → r = final) ∧
    (executedCallsOf trace ≠ [] → r.tool_calls = executedCallsOf trace) := by
  unfold TurnRunner.run_turn at h
  simp only [] at h
  cases hs0 : tr.sendChat (tr.participant.system_prompts ++ history ++
      [⟨"user", .text um⟩]) rf tc with
  | error e =>
    rw [hs0] at h
    simp at h
  | ok r0 =>
    rw [hs0] at h
    simp only [] at h
    obtain ⟨final2, hlast2, hr⟩ := tool_loop_ok_spec tr rf tc k _ r0 []
      [.adapterCall (.ok r0)] r trace rfl rfl h
    have hff : final2 = final := by
      have h12 := hlast2.symm.trans hfin
      simp only [Option.some.injEq, Except.ok.injEq] at h12
      exact h12
    subst hff
    cases hec : executedCallsOf trace with
    | nil =>
      rw [hec] at hr
      simp only [finishResponse, List.isEmpty_nil, if_true] at hr
      subst hr
      exact ⟨rfl, rfl, fun _ => rfl, fun hne => absurd rfl hne⟩
    | cons a as =>
      rw [hec] at hr
      simp only [finishResponse, List.isEmpty_cons, Bool.false_eq_true, if_false] at hr
      subst hr
      exact ⟨rfl, rfl, fun hnil => List.noConfusion hnil, fun _ => rfl⟩

/-- Witness for the amended C1 at the counterexample's input: message and
raw come from the final response, `tool_calls` is the executed `t0`. -/
theorem unresolved_final_response_witness :
    respAggregated.message = (respWithCall toolCall1 ("second")).message ∧
    respAggregated.raw = (respWithCall toolCall1 ("second")).raw ∧
    (executedCallsOf traceLooping = [] →
      respAggregated = respWithCall toolCall1 ("second")) ∧
    (executedCallsOf traceLooping ≠ [] →
      respAggregated.tool_calls = executedCallsOf traceLooping) :=
  unresolved_final_response trLooping Option.none "auto" [] "go" 1
    respAggregated (respWithCall toolCall1 ("second")) traceLooping rfl rfl
    (fun hcontra => List.noConfusion
      (show (toolCall1 :: [] : List ToolCall) = [] from hcontra))

/-- C3 is false as stated: with `max_tool_steps = 0` the loop never
validates the response, so a response whose tool call has a null
`call_id` is returned without any exception — the turn does not fail. -/
theorem call_id_contract_counterexample :
    trNullId.run_turn [] "go" 0 "auto" Option.none =
      (.ok respNullId, [.adapterCall (.ok respNullId)]) ∧
    nullIdCall.call_id = Option.none ∧
    ∀ (e : PyError) (t2 : List TraceEvent),
      trNullId.run_turn [] "go" 0 "auto" Option.none ≠ (.error e, t2) := by
  refine ⟨rfl, rfl, ?_⟩
  intro e t2 hcontra
  have h2 := congrArg Prod.fst hcontra
  exact Except.noConfusion
    (show (Except.ok respNullId : Except PyError ChatResponse) = .error e from h2)

/-- C3 (amended): whenever the tool loop still has a step left and so
processes a response containing a tool call whose `call_id` is null, the
turn fails with a `ValueError` before any tool of that response is
executed — the trace gains no `toolExec` event; in particular `run_turn`
with a positive step budget fails on such a first response with only the
initial adapter call in its trace. -/
theorem call_id_contract (tr : TurnRunner) (rf : Option ResponseFormat) (tc : String) :
    (∀ (rem : Nat) (msgs : List ChatMessage) (response : ChatResponse)
      (executed : List ToolCall) (trace : List TraceEvent),
      (∃ c ∈ response.tool_calls, c.call_id = Option.none) →
      ∃ m, tr.tool_loop rf tc (rem + 1) msgs response executed trace =
        (.error (.valueError m), trace)) ∧
    (∀ (history : List ChatMessage) (um : String) (k : Nat) (r0 : ChatResponse),
      tr.sendChat (tr.participant.system_prompts ++ history ++ [⟨"user", .text um⟩])
        rf tc = .ok r0 →
      (∃ c ∈ r0.tool_calls, c.call_id = Option.none) →
      ∃ m, tr.run_turn history um (k + 1) tc rf =
        (.error (.valueError m), [.adapterCall (.ok r0)])) := by
  have hloop : ∀ (rem : Nat) (msgs : List ChatMessage) (response : ChatResponse)
      (executed : List ToolCall) (trace : List TraceEvent),
      (∃ c ∈ response.tool_calls, c.call_id = Option.none) →
      ∃ m, tr.tool_loop rf tc (rem + 1) msgs response executed trace =
        (.error (.valueError m), trace) := by
    intro rem msgs response executed trace hmem
    have hempty : response.tool_calls.isEmpty = false := by
      obtain ⟨c, hc, _⟩ := hmem
      cases hl : response.tool_calls with
      | nil => rw [hl] at hc; exact absurd hc (List.not_mem_nil c)
      | cons a as => simp
    obtain ⟨m, hm⟩ := buildToolCallsPayload_missing response.tool_calls hmem
    refine ⟨m, ?_⟩
    simp only [TurnRunner.tool_loop, hempty, Bool.false_eq_true, if_false, hm]
  refine ⟨hloop, ?_⟩
  intro history um k r0 hs0 hmem
  obtain ⟨m, hm⟩ := hloop k _ r0 [] [.adapterCall (.ok r0)] hmem
  refine ⟨m, ?_⟩
  unfold TurnRunner.run_turn
  simp only []
  rw [hs0]
  exact hm

/-- Witness for the amended C3: Frank's null-id response at a positive
budget makes the turn fail with a `ValueError`, the trace showing only
the initial adapter call and no tool execution. -/
theorem call_id_contract_witness :
    ∃ m, trNullId.run_turn [] "go" 1 "auto" Option.none =
      (.error (.valueError m), [.adapterCall (.ok respNullId)]) :=
  (call_id_contract trNullId Option.none "auto").2 [] "go" 0 respNullId rfl
    ⟨nullIdCall, List.mem_cons_self _ _, rfl⟩

end MultiAgentHarness
